import Mathlib

/-!
Verification of `arff_to_megam.py`, a one-shot batch converter from ARFF
data files to MegaM's sparse feature format.

The Python source is shallowly embedded below.  Pure helper functions of the
script (`parse_num_list`, `split_with_quotes`, `nominal_to_numeric_dict`,
`sanitize_name`, `print_instance`, `process_set`) become Lean functions of
the same name; the `__main__` block (header loop, class-index resolution,
partition scan, emission phase) is embedded as explicit phase functions
combined by `runPipeline`.  Conventions used throughout:

* Python exceptions (IndexError, KeyError, ValueError, ArgumentTypeError)
  are modelled with `Except String`; an `.error` result models the script
  aborting with a non-zero exit before producing its normal output.
* Python strings are Lean `String`s; the small character-level helpers
  (`pyStrip`, `pyLower`, `splitOnChar`, `pyToNat`, `natToString`) model the
  corresponding Python `str`/`int` primitives structurally so that every
  definition evaluates by kernel reduction.
* `float(...)` values are modelled as exact scaled decimals (`parseFloat`,
  `PyFloat`); the script only ever compares them with zero and echoes the raw
  field string, so no floating-point rounding behaviour is relevant here.
* `csv.reader`-based splitting (`split_with_quotes`) is modelled by a
  character state machine honouring the delimiter, quote and escape
  characters.
* Python `dict`s become lookup functions `String → Option ℕ` /
  `ℕ → Option _`; Python `set`s of instance indices become duplicate-free
  `List ℕ` (the partition scan only ever inserts fresh indices).  CPython's
  set iteration order is unspecified; the emission phase is determinized
  by iterating sets in ascending index order (`sortList`).
* `random.shuffle` is the only source of randomness; theorems about the
  partition scan quantify over arbitrary instance orders, which covers
  every permutation the shuffle could produce.
-/

/-- Characters treated as whitespace by Python's `str.strip()` / `str.split()`. -/
def isPySpace (c : Char) : Bool :=
  c = ' ' ∨ c = '\t' ∨ c = '\n' ∨ c = '\r' ∨ c = '\x0b' ∨ c = '\x0c'

/-- Python `str.strip()`: remove leading and trailing whitespace. -/
def pyStrip (s : String) : String :=
  String.mk (((s.data.dropWhile isPySpace).reverse.dropWhile isPySpace).reverse)

/-- Python `str.strip('\x7b\x7d')`: remove any leading/trailing brace characters
(used on the joined nominal-value token of an `@attribute` line). -/
def stripBraces (s : String) : String :=
  String.mk (((s.data.dropWhile (fun c => c = '\x7b' ∨ c = '\x7d')).reverse.dropWhile
    (fun c => c = '\x7b' ∨ c = '\x7d')).reverse)

/-- Python `str.lower()` (ASCII case folding suffices for the header keywords). -/
def pyLower (s : String) : String :=
  String.mk (s.data.map Char.toLower)

/-- Python `int(s)` on the digit strings reachable in this script: `some` exactly
when `s` is a nonempty all-digit string (so `int('')` raising `ValueError` is
modelled by `none`). -/
def pyToNat (s : String) : Option ℕ :=
  if s ≠ "" ∧ s.data.all Char.isDigit then
    some (s.data.foldl (fun n c => 10 * n + (c.toNat - 48)) 0)
  else none

/-- Auxiliary for `splitOnChar`, accumulating the current field reversed. -/
def splitOnCharAux (sep : Char) : List Char → List Char → List String
  | [], cur => [String.mk cur.reverse]
  | c :: cs, cur =>
    if c = sep then String.mk cur.reverse :: splitOnCharAux sep cs []
    else splitOnCharAux sep cs (c :: cur)

/-- Python `s.split(sep)` for a single-character separator; `"".split(sep) = ['']`. -/
def splitOnChar (s : String) (sep : Char) : List String :=
  splitOnCharAux sep s.data []

/-- Auxiliary for `natToString`: decimal digits of `n` given enough fuel. -/
def natDigits : ℕ → ℕ → List Char
  | 0, _ => []
  | fuel + 1, n =>
    if n < 10 then [Char.ofNat (48 + n)]
    else natDigits fuel (n / 10) ++ [Char.ofNat (48 + n % 10)]

/-- Python `str(n)` for a natural number. -/
def natToString (n : ℕ) : String :=
  String.mk (natDigits (n + 1) n)

/-- `mapME f l`: effectful map over `Except`, stopping at the first error
(the behaviour of a Python `for` loop whose body may raise). -/
def mapME {α β : Type} (f : α → Except String β) : List α → Except String (List β)
  | [] => .ok []
  | x :: xs =>
    match f x with
    | .error e => .error e
    | .ok y =>
      match mapME f xs with
      | .error e => .error e
      | .ok ys => .ok (y :: ys)

/-! ## `parse_num_list` (source lines 18–32) -/

/-- One item of the range grammar: `\d+(-\d+)?`. -/
def isRangeItem (p : String) : Bool :=
  match splitOnChar p '-' with
  | [a] => (pyToNat a).isSome
  | [a, b] => (pyToNat a).isSome && (pyToNat b).isSome
  | _ => false

/-- The guard regex `^(\d+(-\d+)?,)*\d+(-\d+)?$` of `parse_num_list`:
a comma-separated sequence of range items. -/
def matchesRangeGrammar (s : String) : Bool :=
  (splitOnChar s ',').all isRangeItem

/-- `[int(x) for x in parts]`: first non-integer raises `ValueError`. -/
def intListOfStrings : List String → Except String (List ℕ)
  | [] => .ok []
  | x :: xs =>
    match pyToNat x with
    | none => .error "ValueError: invalid literal for int() with base 10"
    | some n =>
      match intListOfStrings xs with
      | .error e => .error e
      | .ok ns => .ok (n :: ns)

/-- Loop body of `parse_num_list` for one comma-separated item `rng`:
`a-b` becomes `range(a, b+1)`; a plain item becomes `[int(rng)]`.
(Items with two or more dashes are unreachable through `parse_num_list`,
whose regex guard admits at most one dash per item.) -/
def expandRangeItem (rng : String) : Except String (List ℕ) :=
  if (splitOnChar rng '-').length > 1 then
    match intListOfStrings (splitOnChar rng '-') with
    | .error e => .error e
    | .ok [a, b] => .ok (List.range' a (b + 1 - a))
    | .ok _ => .error "unreachable: the regex guard admits at most one dash per item"
  else
    match pyToNat rng with
    | none => .error "ValueError: invalid literal for int() with base 10"
    | some n => .ok [n]

/-- The `for rng in num_string.split(',')` loop of `parse_num_list`. -/
def expandItems : List String → Except String (List ℕ)
  | [] => .ok []
  | rng :: rest =>
    match expandRangeItem rng with
    | .error e => .error e
    | .ok xs =>
      match expandItems rest with
      | .error e => .error e
      | .ok ys => .ok (xs ++ ys)

/-- `parse_num_list` (source lines 18–32): the empty string is exempted from the
regex check, every other non-matching string raises `ArgumentTypeError`; then
each comma-separated item is expanded. -/
def parse_num_list (s : String) : Except String (List ℕ) :=
  if s ≠ "" ∧ ¬ matchesRangeGrammar s then
    .error ("ArgumentTypeError: '" ++ s ++
      "' is not a range of numbers. Expected forms are '8-15', '4,8,15,16,23,42', or '3-16,42'.")
  else
    expandItems (splitOnChar s ',')

/-! ## `split_with_quotes` (source lines 35–39) -/

/-- State machine for `split_with_quotes`: `inQ` tracks an open quoted region,
`escN` a pending escape character, `cur` the current field reversed. -/
def splitWQAux (delim quote esc : Char) : List Char → Bool → Bool → List Char → List String
  | [], _, _, cur => [String.mk cur.reverse]
  | c :: cs, inQ, escN, cur =>
    if escN then splitWQAux delim quote esc cs inQ false (c :: cur)
    else if c = esc then splitWQAux delim quote esc cs inQ true cur
    else if c = quote then splitWQAux delim quote esc cs (!inQ) false cur
    else if c = delim ∧ ¬ inQ then
      String.mk cur.reverse :: splitWQAux delim quote esc cs inQ false []
    else splitWQAux delim quote esc cs inQ false (c :: cur)

/-- `split_with_quotes` (source lines 35–39): split one line on a delimiter,
ignoring delimiters inside a quoted region and honouring the escape character
(a model of `csv.reader` restricted to a single line).  Always returns at least
one field, like `csv.reader` on a non-empty line. -/
def split_with_quotes (s : String) (delim : Char) (quote : Char) (esc : Char) : List String :=
  splitWQAux delim quote esc s.data false false []

/-! ## `sanitize_name` and `nominal_to_numeric_dict` (source lines 42–56) -/

/-- Character-wise body of `sanitize_name`: space becomes `_`, `#` becomes `HASH`. -/
def sanitizeChars : List Char → List Char
  | [] => []
  | c :: cs =>
    (if c = ' ' then ['_'] else if c = '#' then ['H', 'A', 'S', 'H'] else [c]) ++ sanitizeChars cs

/-- `sanitize_name` (source lines 52–56): `name.replace(" ", "_").replace("#", "HASH")`. -/
def sanitize_name (s : String) : String :=
  String.mk (sanitizeChars s.data)

/-- Auxiliary for `nominal_to_numeric_dict`: the Python loop assigns
`num_dict[nominal_list[i]] = i` for increasing `i`, so for duplicate labels the
later (larger) index wins; the recursion therefore prefers the tail's answer. -/
def nominalDictAux : ℕ → List String → String → Option ℕ
  | _, [], _ => none
  | i, s :: rest, t =>
    match nominalDictAux (i + 1) rest t with
    | some v => some v
    | none => if t = s then some i else none

/-- `nominal_to_numeric_dict` (source lines 42–49): label string → its index in
the declared nominal value list (last-write-wins on duplicates). -/
def nominal_to_numeric_dict (l : List String) : String → Option ℕ :=
  nominalDictAux 0 l

/-! ## ARFF header processing (source lines 143–161) -/

/-- One attribute record `[name, kind, values]` of `attr_list`:
kind 2 = nominal, 1 = numeric, 0 = string/other. -/
structure Attr where
  name : String
  kind : ℕ
  values : List String
deriving DecidableEq

/-- Kind assigned to a non-brace attribute-type token (source line 157):
`int(split_header[2] == 'numeric')` — an exact, case-sensitive comparison. -/
def attrKind (typeTok : String) : ℕ :=
  if typeTok = "numeric" then 1 else 0

/-- The header loop (source lines 145–161): consume lines, skipping blank ones;
`@attribute` appends to `attr_list` (nominal when the type token starts with
a brace, else `attrKind`); `@relation` records a name; `@data` breaks, leaving
the remaining lines as the raw data region.  Input exhaustion without `@data`
simply ends the loop with an empty remainder.  Missing tokens model Python's
`IndexError`. -/
def processHeader (quote : Char) : List String → List Attr → String →
    Except String (List Attr × String × List String)
  | [], attrs, rel => .ok (attrs, rel, [])
  | line :: rest, attrs, rel =>
    if pyStrip line = "" then processHeader quote rest attrs rel
    else
      if pyLower ((split_with_quotes line ' ' quote '\\').headD "") = "@attribute" then
        match (split_with_quotes line ' ' quote '\\').get? 1,
            (split_with_quotes line ' ' quote '\\').get? 2 with
        | some name, some typeTok =>
          match typeTok.data.head? with
          | none => .error "IndexError: string index out of range"
          | some c0 =>
            if c0 = '\x7b' then
              processHeader quote rest (attrs ++ [⟨name, 2,
                (split_with_quotes
                  (stripBraces (" ".intercalate ((split_with_quotes line ' ' quote '\\').drop 2)))
                  ',' quote '\\').map pyStrip⟩]) rel
            else
              processHeader quote rest (attrs ++ [⟨name, attrKind typeTok, []⟩]) rel
        | _, _ => .error "IndexError: list index out of range"
      else if pyLower ((split_with_quotes line ' ' quote '\\').headD "") = "@data" then
        .ok (attrs, rel, rest)
      else if pyLower ((split_with_quotes line ' ' quote '\\').headD "") = "@relation" then
        match (split_with_quotes line ' ' quote '\\').get? 1 with
        | some r => processHeader quote rest attrs r
        | none => .error "IndexError: list index out of range"
      else processHeader quote rest attrs rel

/-! ## Class-index resolution (source lines 163–167) -/

/-- The class-index shift: a positive configured index is 1-based (`ci - 1`),
a non-positive one counts from the end (`ci + len(attr_list)`). -/
def resolveClassIndex (ci : ℤ) (n : ℕ) : ℤ :=
  if ci > 0 then ci - 1 else ci + n

/-- Python list indexing `l[i]` for a possibly negative index: indices in
`[-len, len)` resolve (negative ones wrap once), anything else raises
`IndexError` (modelled by `none`). -/
def pyIdx (n : ℕ) (i : ℤ) : Option ℕ :=
  if 0 ≤ i ∧ i < n then some i.toNat
  else if -(n : ℤ) ≤ i ∧ i < 0 then some (i + n).toNat
  else none

/-! ## Configuration (`args`, source lines 112–136) -/

/-- The validated command-line configuration.  `binary`, `features` and
`superclasses` are `parse_num_list` results with `[]` standing for Python's
falsy `None`/empty default; `classindex` is the configured (possibly negative,
nonzero) value before resolution; `dev`/`test`/`max` are the per-class caps
(`0` = unbounded for `max`, "no split requested" for `dev`/`test`). -/
structure Args where
  binary : List ℕ
  doubleup : Bool
  classindex : ℤ
  dev : ℕ
  features : List ℕ
  max : ℕ
  namedclasses : Bool
  quotechar : Char
  randomize : Bool
  superclasses : List ℕ
  test : ℕ
  verbose : Bool

/-! ## `float()` parsing -/

/-- An exact decimal: the value `num / 10 ^ exp`.  The script only ever tests
a parsed float for truthiness (value `≠ 0`, equivalently `num ≠ 0`) and echoes
the raw field string, so this exact representation is a faithful model of
Python `float` here and no rounding behaviour is involved. -/
structure PyFloat where
  num : ℤ
  exp : ℕ
deriving DecidableEq

/-- Python `float(s)` on the decimal strings this script feeds it: optional
sign, digits with an optional fractional part. -/
def parseFloat (s : String) : Option PyFloat :=
  let t := pyStrip s
  let signAndRest : ℤ × String :=
    if t.data.head? = some '-' then (-1, String.mk (t.data.drop 1))
    else if t.data.head? = some '+' then (1, String.mk (t.data.drop 1))
    else (1, t)
  match splitOnChar signAndRest.2 '.' with
  | [a] => (pyToNat a).map (fun n => ⟨signAndRest.1 * n, 0⟩)
  | [a, b] =>
    if a = "" ∧ b = "" then none
    else if (a = "" ∨ (pyToNat a).isSome) ∧ (b = "" ∨ (pyToNat b).isSome) then
      some ⟨signAndRest.1 * ((pyToNat a).getD 0 * 10 ^ b.length + (pyToNat b).getD 0), b.length⟩
    else none
  | _ => none

/-! ## Output tokens -/

/-- One printed token of the MegaM output.  The constructors record which
`print` statement of the source produced the token: the class label
(line 96), the `#` hypothesis marker (line 100), a binarized numeric feature
(line 73), a raw numeric feature (lines 75/77), or a nominal feature
(line 80). -/
inductive Tok where
  | classTok (s : String)
  | hash
  | bin (name : String) (v : ℕ)
  | num (name : String) (raw : String)
  | nom (name : String) (code : ℕ)
deriving DecidableEq

/-- The feature name carried by a token (`#` for the marker token). -/
def tokName : Tok → String
  | .classTok s => s
  | .hash => "#"
  | .bin n _ => n
  | .num n _ => n
  | .nom n _ => n

/-! ## `print_instance` (source lines 59–87) -/

/-- The `clean_name` local of `print_instance` (source line 66): the sanitized
attribute name, or `F<1-based index><suffix>` when a suffix is given. -/
def clean_name (attr : Attr) (suffix : Option String) (i : ℕ) : String :=
  sanitize_name (match suffix with
    | none => attr.name
    | some suf => "F" ++ natToString (i + 1) ++ suf)

/-- Loop body of `print_instance` for attribute position `i` (0-based): the
tokens printed to stdout for that feature.  Excluded or string-valued features
print nothing to stdout (verbose mode writes them to stderr only, which this
embedding does not model).  `nd` is `nominal_dict`, whose domain is exactly
the nominal attribute indices. -/
def printFeature (args : Args) (ci : ℕ) (inst : List String)
    (nd : ℕ → Option (String → Option ℕ)) (attrList : List Attr)
    (suffix : Option String) (i : ℕ) : Except String (List Tok) :=
  if i = ci then .ok []
  else if ¬ ((args.features = [] ∨ (i + 1) ∈ args.features) ∧ (i + 1) ∉ args.superclasses) then
    .ok []
  else
    match attrList.get? i with
    | none => .error "IndexError: list index out of range"
    | some attr =>
      if attr.kind = 1 then
        match parseFloat (inst.getD i "") with
        | none => .error "ValueError: could not convert string to float"
        | some v =>
          if v.num ≠ 0 then
            if args.binary ≠ [] ∧ (args.binary = [0] ∨ (i + 1) ∈ args.binary) then
              .ok ([Tok.bin (clean_name attr suffix i) (if v.num ≠ 0 then 1 else 0)] ++
                (if args.doubleup then [Tok.num (clean_name attr suffix i) (inst.getD i "")] else []))
            else .ok [Tok.num (clean_name attr suffix i) (inst.getD i "")]
          else .ok []
      else
        match nd i with
        | some d =>
          match d (inst.getD i "") with
          | some code => .ok [Tok.nom (clean_name attr suffix i) code]
          | none => .error "KeyError: nominal value not declared"
        | none => .ok []

/-- `print_instance` (source lines 59–87): tokens printed for all attribute
positions of the instance (the loop runs over `len(instance)`). -/
def print_instance (args : Args) (ci : ℕ) (inst : List String)
    (nd : ℕ → Option (String → Option ℕ)) (attrList : List Attr)
    (suffix : Option String) : Except String (List Tok) :=
  match mapME (printFeature args ci inst nd attrList suffix) (List.range inst.length) with
  | .error e => .error e
  | .ok chunks => .ok chunks.flatten

/-! ## `process_set` (source lines 90–107) -/

/-- The class-label token printed at the start of each record (source line 96):
the sanitized literal label in named-classes mode, otherwise the integer code
via `nominal_dict[args.classindex]`. -/
def classToken (args : Args) (ci : ℕ) (nd : ℕ → Option (String → Option ℕ))
    (inst : List String) : Except String Tok :=
  match inst.get? ci with
  | none => .error "IndexError: list index out of range"
  | some s =>
    if args.namedclasses then .ok (Tok.classTok (sanitize_name s))
    else
      match nd ci with
      | none => .error "KeyError: nominal_dict[args.classindex]"
      | some d =>
        match d s with
        | none => .error ("KeyError: " ++ s)
        | some n => .ok (Tok.classTok (natToString n))

/-- The suffix `" {} {}".format(attr_list[superclass_feat - 1][0],
instance[superclass_feat - 1])` of source line 103 (Python indexing, so a
configured superclass index of 0 would wrap to the last attribute). -/
def superclassSuffix (attrList : List Attr) (inst : List String) (sf : ℕ) :
    Except String String :=
  match pyIdx attrList.length ((sf : ℤ) - 1) with
  | none => .error "IndexError: list index out of range"
  | some j =>
    match pyIdx inst.length ((sf : ℤ) - 1) with
    | none => .error "IndexError: list index out of range"
    | some k => .ok (" " ++ (attrList.getD j ⟨"", 0, []⟩).name ++ " " ++ inst.getD k "")

/-- The inner loop of source lines 102–103: for each configured superclass
index, a further full `print_instance` rendering suffixed with that
superclass attribute's name and the instance's value for it. -/
def superclassRenderings (args : Args) (ci : ℕ) (nd : ℕ → Option (String → Option ℕ))
    (attrList : List Attr) (inst : List String) : Except String (List (List Tok)) :=
  mapME (fun sf =>
      match superclassSuffix attrList inst sf with
      | .error e => .error e
      | .ok suf => print_instance args ci inst nd attrList (some suf)) args.superclasses

/-- One `#`-marked hypothesis block of the explicit format (source
lines 100–103): the marker, the ordinary features suffixed with the
hypothesized class name, then the superclass renderings. -/
def explicitBlock (args : Args) (ci : ℕ) (nd : ℕ → Option (String → Option ℕ))
    (attrList : List Attr) (inst : List String) (cname : String) :
    Except String (List Tok) :=
  match print_instance args ci inst nd attrList (some (" " ++ cname)) with
  | .error e => .error e
  | .ok ord =>
    match superclassRenderings args ci nd attrList inst with
    | .error e => .error e
    | .ok sups => .ok (Tok.hash :: ord ++ sups.flatten)

/-- The per-instance body of `process_set` (source lines 94–107): split the
raw line, print the class token, then either the explicit-format hypothesis
blocks (superclasses configured) or a single implicit-format rendering. -/
def process_instance (args : Args) (ci : ℕ) (nd : ℕ → Option (String → Option ℕ))
    (attrList : List Attr) (line : String) : Except String (List Tok) :=
  match classToken args ci nd (split_with_quotes line ',' args.quotechar '\\') with
  | .error e => .error e
  | .ok ctok =>
    if args.superclasses ≠ [] then
      match attrList.get? ci with
      | none => .error "IndexError: list index out of range"
      | some catt =>
        match mapME (explicitBlock args ci nd attrList
            (split_with_quotes line ',' args.quotechar '\\')) catt.values with
        | .error e => .error e
        | .ok blocks => .ok (ctok :: blocks.flatten)
    else
      match print_instance args ci (split_with_quotes line ',' args.quotechar '\\')
          nd attrList none with
      | .error e => .error e
      | .ok toks => .ok (ctok :: toks)

/-- Ascending insertion for `sortList`. -/
def insertAsc (n : ℕ) : List ℕ → List ℕ
  | [] => [n]
  | m :: ms => if n ≤ m then n :: m :: ms else m :: insertAsc n ms

/-- Ascending sort, used to determinize the iteration order of a Python set
of instance indices (CPython's actual set order is unspecified). -/
def sortList (l : List ℕ) : List ℕ :=
  l.foldr insertAsc []

/-- One record item of the output stream: a section marker line or one
instance record. -/
inductive OutItem where
  | marker (s : String)
  | record (toks : List Tok)
deriving DecidableEq

/-- `true` exactly on instance records (not on `DEV`/`TEST` marker lines). -/
def isRec : OutItem → Bool
  | .record _ => true
  | .marker _ => false

/-- `process_set` (source lines 90–107): render every instance index of one
per-class bucket, fetching the deferred raw line by index. -/
def process_set (args : Args) (ci : ℕ) (nd : ℕ → Option (String → Option ℕ))
    (attrList : List Attr) (instStrs : List String) (bucket : List ℕ) :
    Except String (List OutItem) :=
  mapME (fun idx =>
      match instStrs.get? idx with
      | none => .error "IndexError: list index out of range"
      | some line =>
        match process_instance args ci nd attrList line with
        | .error e => .error e
        | .ok toks => .ok (OutItem.record toks))
    (sortList bucket)

/-! ## The partition scan (source lines 174–195) -/

/-- Python `set.add` on a bucket of instance indices (no-op on a duplicate;
the scan only ever offers fresh indices, so buckets stay duplicate-free). -/
def bucketAdd (l : List ℕ) (i : ℕ) : List ℕ :=
  if i ∈ l then l else l ++ [i]

/-- The three per-class bucket families.  Python keeps three lists of sets
indexed by class code (always a valid index into `class_list`); they are
modelled as total functions from class codes to buckets, empty outside the
touched codes. -/
structure PartState where
  dev : ℕ → List ℕ
  test : ℕ → List ℕ
  train : ℕ → List ℕ

/-- The initial `[set() for x in class_list]` state (source lines 175–177). -/
def emptyPartState : PartState :=
  ⟨fun _ => [], fun _ => [], fun _ => []⟩

/-- One iteration of the partition loop (source lines 188–195) for instance
index `i` with class code `c`: fill dev while below `devCap`, else test while
below `testCap`, else train when `maxCap` is zero (unbounded) or below it;
otherwise drop the instance. -/
def partStep (devCap testCap maxCap : ℕ) (st : PartState) (c i : ℕ) : PartState :=
  if (st.dev c).length < devCap then
    { st with dev := Function.update st.dev c (bucketAdd (st.dev c) i) }
  else if (st.test c).length < testCap then
    { st with test := Function.update st.test c (bucketAdd (st.test c) i) }
  else if maxCap = 0 ∨ (st.train c).length < maxCap then
    { st with train := Function.update st.train c (bucketAdd (st.train c) i) }
  else st

/-- The partition loop from enumerate position `i` onward over the remaining
class codes `cs`. -/
def partitionFrom (devCap testCap maxCap : ℕ) : List ℕ → ℕ → PartState → PartState
  | [], _, st => st
  | c :: cs, i, st => partitionFrom devCap testCap maxCap cs (i + 1) (partStep devCap testCap maxCap st c i)

/-- The whole partition scan (source lines 188–195): `cs` lists the class code
of each instance in processing order, indices are enumerate positions. -/
def partitionScan (devCap testCap maxCap : ℕ) (cs : List ℕ) : PartState :=
  partitionFrom devCap testCap maxCap cs 0 emptyPartState

/-- Membership of instance index `j` in any class's dev bucket. -/
def inDev (st : PartState) (j : ℕ) : Prop := ∃ c, j ∈ st.dev c

/-- Membership of instance index `j` in any class's test bucket. -/
def inTest (st : PartState) (j : ℕ) : Prop := ∃ c, j ∈ st.test c

/-- Membership of instance index `j` in any class's train bucket. -/
def inTrain (st : PartState) (j : ℕ) : Prop := ∃ c, j ∈ st.train c

/-- Exactly one of three propositions holds. -/
def exactlyOneOf (a b c : Prop) : Prop :=
  (a ∧ ¬ b ∧ ¬ c) ∨ (¬ a ∧ b ∧ ¬ c) ∨ (¬ a ∧ ¬ b ∧ c)

/-- Instance index `j` is in no bucket of any family. -/
def inNone (st : PartState) (j : ℕ) : Prop :=
  ¬ inDev st j ∧ ¬ inTest st j ∧ ¬ inTrain st j

/-! ## The orchestrator (source lines 143–211) -/

/-- `nominal_dict` (source line 170): defined exactly on the indices of
nominal (`kind = 2`) attributes. -/
def build_nominal_dict (attrs : List Attr) : ℕ → Option (String → Option ℕ) :=
  fun i =>
    match attrs.get? i with
    | some a => if a.kind = 2 then some (nominal_to_numeric_dict a.values) else none
    | none => none

/-- The per-instance class-code extraction of the partition loop (source
lines 188–190): split the raw line, index the class field, look it up in
`class_dict`.  An unknown class label models the fatal `KeyError`. -/
def extractCodes (args : Args) (class_dict : String → Option ℕ) (ci : ℕ) :
    List String → Except String (List ℕ)
  | [] => .ok []
  | line :: rest =>
    match (split_with_quotes line ',' args.quotechar '\\').get? ci with
    | none => .error "IndexError: list index out of range"
    | some s =>
      match class_dict s with
      | none => .error ("KeyError: " ++ s)
      | some c =>
        match extractCodes args class_dict ci rest with
        | .error e => .error e
        | .ok cs => .ok (c :: cs)

/-- Everything the orchestrator has computed just before the emission phase:
the attribute schema, `nominal_dict`, the resolved class index, `class_dict`,
the class attribute's value list, the (stripped) deferred data lines, their
class codes, and the filled partition state. -/
structure Ctx where
  attrs : List Attr
  nd : ℕ → Option (String → Option ℕ)
  ciNat : ℕ
  class_dict : String → Option ℕ
  classList : List String
  dataLines : List String
  codes : List ℕ
  st : PartState

/-- The orchestrator up to the end of the partition scan (source
lines 143–195), in source order: header loop; class-index shift;
`nominal_dict`; `class_list = attr_list[args.classindex][2]` (Python
indexing, possible `IndexError`); `class_dict = nominal_dict[args.classindex]`
(`KeyError` when the class attribute is not nominal — dict keys are the
non-negative nominal indices); strip the deferred data lines; partition scan.
Models the `randomize = false` path (no shuffle). -/
def pipelineContext (args : Args) (lines : List String) : Except String Ctx :=
  match processHeader args.quotechar lines [] "" with
  | .error e => .error e
  | .ok (attrs, _rel, rest) =>
    let resolved := resolveClassIndex args.classindex attrs.length
    let nd := build_nominal_dict attrs
    match pyIdx attrs.length resolved with
    | none => .error "IndexError: list index out of range"
    | some clIdx =>
      let classList := (attrs.getD clIdx ⟨"", 0, []⟩).values
      match (if 0 ≤ resolved then nd resolved.toNat else none) with
      | none => .error "KeyError: nominal_dict[args.classindex]"
      | some class_dict =>
        let dataLines := rest.map pyStrip
        match extractCodes args class_dict resolved.toNat dataLines with
        | .error e => .error e
        | .ok codes =>
          .ok ⟨attrs, nd, resolved.toNat, class_dict, classList, dataLines, codes,
            partitionScan args.dev args.test args.max codes⟩

/-- The filled dev/test/train buckets for a configuration and input. -/
def runPartition (args : Args) (lines : List String) : Except String PartState :=
  (pipelineContext args lines).map Ctx.st

/-- One emission section (source lines 198–199, 204–205, 210–211): process
each class's bucket of the given family, in declared class order. -/
def sectionRecords (args : Args) (ctx : Ctx) (buckets : ℕ → List ℕ) :
    Except String (List OutItem) :=
  match mapME (fun c => process_set args ctx.ciNat ctx.nd ctx.attrs ctx.dataLines (buckets c))
      (List.range ctx.classList.length) with
  | .error e => .error e
  | .ok outs => .ok outs.flatten

/-- The whole program (source lines 143–211): context phases, then the train
records (no marker), then — when the dev cap is nonzero — the literal `DEV`
marker and the dev records, then likewise `TEST` (source lines 202 and 208
test `args.dev`/`args.test`, not the record counts). -/
def runPipeline (args : Args) (lines : List String) : Except String (List OutItem) :=
  match pipelineContext args lines with
  | .error e => .error e
  | .ok ctx =>
    match sectionRecords args ctx ctx.st.train with
    | .error e => .error e
    | .ok tr =>
      match (if args.dev ≠ 0 then
          (sectionRecords args ctx ctx.st.dev).map (fun dv => OutItem.marker "DEV" :: dv)
        else .ok []) with
      | .error e => .error e
      | .ok devSec =>
        match (if args.test ≠ 0 then
            (sectionRecords args ctx ctx.st.test).map (fun ts => OutItem.marker "TEST" :: ts)
          else .ok []) with
        | .error e => .error e
        | .ok testSec => .ok (tr ++ devSec ++ testSec)

/-- A configuration with every option at its command-line default. -/
def defaultArgs : Args :=
  { binary := [], doubleup := false, classindex := -1, dev := 0, features := [],
    max := 0, namedclasses := false, quotechar := '\'', randomize := false,
    superclasses := [], test := 0, verbose := false }

/-! ## Concrete configurations and inputs used in the theorems below -/

/-- `--dev 2 --test 1` (no max cap, no shuffle). -/
def argsDev2Test1 : Args := { defaultArgs with dev := 2, test := 1 }

/-- Five data lines of one class after a two-attribute header. -/
def linesFiveSameClass : List String :=
  ["@attribute id string", "@attribute cls \x7bx\x7d", "@data",
   "A,x", "B,x", "C,x", "D,x", "E,x"]

/-- `--superclasses 3` with the four-attribute schema below. -/
def argsSuper3 : Args := { defaultArgs with superclasses := [3] }

/-- Schema: two numeric features, one nominal superclass feature, the class. -/
def attrsSuper : List Attr :=
  [⟨"a1", 1, []⟩, ⟨"a2", 1, []⟩, ⟨"sup", 2, ["p", "q"]⟩, ⟨"cls", 2, ["cat", "dog"]⟩]

/-- `--binary 0` (binarize all numeric features). -/
def argsBinAll : Args := { defaultArgs with binary := [0] }

/-- Schema: one numeric feature and a nominal class. -/
def attrsNumCls : List Attr := [⟨"age", 1, []⟩, ⟨"cls", 2, ["x"]⟩]

/-- `--dev 1` (dev split requested, no test split). -/
def argsDev1 : Args := { defaultArgs with dev := 1 }

/-- `--dev 1 --test 1`. -/
def argsDev1Test1 : Args := { defaultArgs with dev := 1, test := 1 }

/-! ## Lemmas about the partition scan -/

theorem bucketAdd_mem {l : List ℕ} {i j : ℕ} : j ∈ bucketAdd l i ↔ (j ∈ l ∨ j = i) := by
  unfold bucketAdd
  split_ifs with h
  · exact ⟨Or.inl, fun hj => hj.elim id (fun e => e ▸ h)⟩
  · simp

theorem bucketAdd_length_le (l : List ℕ) (i : ℕ) : (bucketAdd l i).length ≤ l.length + 1 := by
  unfold bucketAdd
  split_ifs <;> simp

theorem partStep_dev_mem {d t m : ℕ} {st : PartState} {c i j c' : ℕ} (hj : j ≠ i) :
    j ∈ (partStep d t m st c i).dev c' ↔ j ∈ st.dev c' := by
  unfold partStep
  split_ifs with h1 h2 h3 <;> try exact Iff.rfl
  show j ∈ Function.update st.dev c (bucketAdd (st.dev c) i) c' ↔ _
  rcases eq_or_ne c' c with rfl | hcc
  · rw [Function.update_same, bucketAdd_mem]
    exact ⟨fun h => h.elim id (fun e => absurd e hj), Or.inl⟩
  · rw [Function.update_noteq hcc]

theorem partStep_test_mem {d t m : ℕ} {st : PartState} {c i j c' : ℕ} (hj : j ≠ i) :
    j ∈ (partStep d t m st c i).test c' ↔ j ∈ st.test c' := by
  unfold partStep
  split_ifs with h1 h2 h3 <;> try exact Iff.rfl
  show j ∈ Function.update st.test c (bucketAdd (st.test c) i) c' ↔ _
  rcases eq_or_ne c' c with rfl | hcc
  · rw [Function.update_same, bucketAdd_mem]
    exact ⟨fun h => h.elim id (fun e => absurd e hj), Or.inl⟩
  · rw [Function.update_noteq hcc]

theorem partStep_train_mem {d t m : ℕ} {st : PartState} {c i j c' : ℕ} (hj : j ≠ i) :
    j ∈ (partStep d t m st c i).train c' ↔ j ∈ st.train c' := by
  unfold partStep
  split_ifs with h1 h2 h3 <;> try exact Iff.rfl
  show j ∈ Function.update st.train c (bucketAdd (st.train c) i) c' ↔ _
  rcases eq_or_ne c' c with rfl | hcc
  · rw [Function.update_same, bucketAdd_mem]
    exact ⟨fun h => h.elim id (fun e => absurd e hj), Or.inl⟩
  · rw [Function.update_noteq hcc]

theorem partStep_inDev {d t m : ℕ} {st : PartState} {c i j : ℕ} (hj : j ≠ i) :
    inDev (partStep d t m st c i) j ↔ inDev st j :=
  exists_congr fun _ => partStep_dev_mem hj

theorem partStep_inTest {d t m : ℕ} {st : PartState} {c i j : ℕ} (hj : j ≠ i) :
    inTest (partStep d t m st c i) j ↔ inTest st j :=
  exists_congr fun _ => partStep_test_mem hj

theorem partStep_inTrain {d t m : ℕ} {st : PartState} {c i j : ℕ} (hj : j ≠ i) :
    inTrain (partStep d t m st c i) j ↔ inTrain st j :=
  exists_congr fun _ => partStep_train_mem hj

/-- Per-class cap bounds maintained by the scan: dev and test never exceed
their caps, and train never exceeds a nonzero `max` cap. -/
def capsLe (d t m : ℕ) (st : PartState) : Prop :=
  ∀ c, (st.dev c).length ≤ d ∧ (st.test c).length ≤ t ∧ (m ≠ 0 → (st.train c).length ≤ m)

/-- All instance indices at or beyond `i` are still unplaced. -/
def fresh (st : PartState) (i : ℕ) : Prop :=
  ∀ j, i ≤ j → inNone st j

/-- The per-instance partition invariant: index `j` of class `c` is in exactly
one bucket, or was dropped because `max` is nonzero and all three caps for its
class are met. -/
def placedOK (d t m : ℕ) (st : PartState) (j c : ℕ) : Prop :=
  exactlyOneOf (inDev st j) (inTest st j) (inTrain st j) ∨
    (m ≠ 0 ∧ inNone st j ∧
      (st.dev c).length = d ∧ (st.test c).length = t ∧ (st.train c).length = m)

theorem partStep_fresh {d t m : ℕ} {st : PartState} {c i : ℕ} (h : fresh st i) :
    fresh (partStep d t m st c i) (i + 1) := by
  intro j hj
  have hji : j ≠ i := by omega
  obtain ⟨h1, h2, h3⟩ := h j (by omega)
  exact ⟨fun hx => h1 ((partStep_inDev hji).mp hx),
    fun hx => h2 ((partStep_inTest hji).mp hx),
    fun hx => h3 ((partStep_inTrain hji).mp hx)⟩

theorem partStep_capsLe {d t m : ℕ} {st : PartState} {c i : ℕ} (h : capsLe d t m st) :
    capsLe d t m (partStep d t m st c i) := by
  intro c'
  obtain ⟨h1, h2, h3⟩ := h c'
  unfold partStep
  split_ifs with g1 g2 g3
  · refine ⟨?_, h2, h3⟩
    show (Function.update st.dev c (bucketAdd (st.dev c) i) c').length ≤ d
    rcases eq_or_ne c' c with rfl | hcc
    · rw [Function.update_same]
      exact le_trans (bucketAdd_length_le _ _) (by omega)
    · rw [Function.update_noteq hcc]; exact h1
  · refine ⟨h1, ?_, h3⟩
    show (Function.update st.test c (bucketAdd (st.test c) i) c').length ≤ t
    rcases eq_or_ne c' c with rfl | hcc
    · rw [Function.update_same]
      exact le_trans (bucketAdd_length_le _ _) (by omega)
    · rw [Function.update_noteq hcc]; exact h2
  · refine ⟨h1, h2, fun hm => ?_⟩
    show (Function.update st.train c (bucketAdd (st.train c) i) c').length ≤ m
    rcases eq_or_ne c' c with rfl | hcc
    · rw [Function.update_same]
      have : (st.train c').length < m := g3.elim (fun e => absurd e hm) id
      exact le_trans (bucketAdd_length_le _ _) (by omega)
    · rw [Function.update_noteq hcc]; exact h3 hm
  · exact ⟨h1, h2, h3⟩

theorem partStep_dev_len_eq {d t m : ℕ} {st : PartState} {c i c' : ℕ}
    (h : (st.dev c').length = d) : ((partStep d t m st c i).dev c').length = d := by
  unfold partStep
  split_ifs with g1 g2 g3 <;> try exact h
  show (Function.update st.dev c (bucketAdd (st.dev c) i) c').length = d
  rcases eq_or_ne c' c with rfl | hcc
  · omega
  · rw [Function.update_noteq hcc]; exact h

theorem partStep_test_len_eq {d t m : ℕ} {st : PartState} {c i c' : ℕ}
    (h : (st.test c').length = t) : ((partStep d t m st c i).test c').length = t := by
  unfold partStep
  split_ifs with g1 g2 g3 <;> try exact h
  show (Function.update st.test c (bucketAdd (st.test c) i) c').length = t
  rcases eq_or_ne c' c with rfl | hcc
  · omega
  · rw [Function.update_noteq hcc]; exact h

theorem partStep_train_len_eq {d t m : ℕ} {st : PartState} {c i c' : ℕ} (hm : m ≠ 0)
    (h : (st.train c').length = m) : ((partStep d t m st c i).train c').length = m := by
  unfold partStep
  split_ifs with g1 g2 g3 <;> try exact h
  show (Function.update st.train c (bucketAdd (st.train c) i) c').length = m
  rcases eq_or_ne c' c with rfl | hcc
  · have : (st.train c').length < m := g3.elim (fun e => absurd e hm) id
    omega
  · rw [Function.update_noteq hcc]; exact h

theorem partStep_placedOK_preserved {d t m : ℕ} {st : PartState} {c i j c₀ : ℕ}
    (hj : j ≠ i) (h : placedOK d t m st j c₀) :
    placedOK d t m (partStep d t m st c i) j c₀ := by
  rcases h with he | ⟨hm, ⟨hn1, hn2, hn3⟩, hd, ht, htr⟩
  · left
    simp only [exactlyOneOf, partStep_inDev hj, partStep_inTest hj, partStep_inTrain hj]
    exact he
  · right
    refine ⟨hm, ⟨?_, ?_, ?_⟩, partStep_dev_len_eq hd, partStep_test_len_eq ht,
      partStep_train_len_eq hm htr⟩
    · exact fun hx => hn1 ((partStep_inDev hj).mp hx)
    · exact fun hx => hn2 ((partStep_inTest hj).mp hx)
    · exact fun hx => hn3 ((partStep_inTrain hj).mp hx)

theorem partStep_placedOK_new {d t m : ℕ} {st : PartState} {i : ℕ}
    (hfresh : fresh st i) (hcaps : capsLe d t m st) (c : ℕ) :
    placedOK d t m (partStep d t m st c i) i c := by
  obtain ⟨hnd, hnt, hntr⟩ := hfresh i le_rfl
  obtain ⟨hld, hlt, hltr⟩ := hcaps c
  unfold partStep
  split_ifs with g1 g2 g3
  · left; left
    refine ⟨⟨c, ?_⟩, hnt, hntr⟩
    show i ∈ Function.update st.dev c (bucketAdd (st.dev c) i) c
    rw [Function.update_same, bucketAdd_mem]
    exact Or.inr rfl
  · left; right; left
    refine ⟨hnd, ⟨c, ?_⟩, hntr⟩
    show i ∈ Function.update st.test c (bucketAdd (st.test c) i) c
    rw [Function.update_same, bucketAdd_mem]
    exact Or.inr rfl
  · left; right; right
    refine ⟨hnd, hnt, ⟨c, ?_⟩⟩
    show i ∈ Function.update st.train c (bucketAdd (st.train c) i) c
    rw [Function.update_same, bucketAdd_mem]
    exact Or.inr rfl
  · right
    push_neg at g3
    exact ⟨g3.1, ⟨hnd, hnt, hntr⟩, by omega, by omega, by omega⟩

theorem partitionFrom_props (d t m : ℕ) (cs : List ℕ) :
    ∀ (i : ℕ) (st : PartState), fresh st i → capsLe d t m st →
      fresh (partitionFrom d t m cs i st) (i + cs.length) ∧
      capsLe d t m (partitionFrom d t m cs i st) ∧
      (∀ j c₀, j < i → placedOK d t m st j c₀ →
        placedOK d t m (partitionFrom d t m cs i st) j c₀) ∧
      (∀ p, p < cs.length →
        placedOK d t m (partitionFrom d t m cs i st) (i + p) (cs.getD p 0)) := by
  induction cs with
  | nil =>
    intro i st hf hc
    refine ⟨by simpa using hf, hc, fun j c₀ _ h => h, fun p hp => absurd hp (by simp)⟩
  | cons c cs ih =>
    intro i st hf hc
    obtain ⟨F, C, Pres, New⟩ := ih (i + 1) (partStep d t m st c i)
      (partStep_fresh hf) (partStep_capsLe hc)
    have unfoldEq : partitionFrom d t m (c :: cs) i st =
        partitionFrom d t m cs (i + 1) (partStep d t m st c i) := rfl
    have hlen : i + (c :: cs).length = (i + 1) + cs.length := by
      simp only [List.length_cons]; omega
    refine ⟨?_, ?_, ?_, ?_⟩
    · rw [unfoldEq, hlen]; exact F
    · rw [unfoldEq]; exact C
    · intro j c₀ hj h
      rw [unfoldEq]
      exact Pres j c₀ (by omega) (partStep_placedOK_preserved (by omega) h)
    · intro p hp
      rw [unfoldEq]
      cases p with
      | zero =>
        exact Pres i c (by omega) (partStep_placedOK_new hf hc c)
      | succ p' =>
        have : i + (p' + 1) = (i + 1) + p' := by omega
        rw [this]
        exact New p' (by simpa using hp)

/-! ## Lemmas about `mapME` and the emitters -/

theorem mapME_ok_mem {α β : Type} {f : α → Except String β} :
    ∀ {l : List α} {ys : List β}, mapME f l = .ok ys → ∀ y ∈ ys, ∃ x ∈ l, f x = .ok y := by
  intro l
  induction l with
  | nil =>
    intro ys h y hy
    unfold mapME at h
    cases h
    simp at hy
  | cons x xs ih =>
    intro ys h y hy
    unfold mapME at h
    cases hf : f x with
    | error e => rw [hf] at h; exact absurd h (by simp)
    | ok y0 =>
      rw [hf] at h
      cases hm : mapME f xs with
      | error e => rw [hm] at h; exact absurd h (by simp)
      | ok ys0 =>
        rw [hm] at h
        cases h
        rcases List.mem_cons.mp hy with rfl | hy0
        · exact ⟨x, List.mem_cons_self x xs, hf⟩
        · obtain ⟨x0, hx0, hfx0⟩ := ih hm y hy0
          exact ⟨x0, List.mem_cons_of_mem x hx0, hfx0⟩

theorem mapME_ok_length {α β : Type} {f : α → Except String β} :
    ∀ {l : List α} {ys : List β}, mapME f l = .ok ys → ys.length = l.length := by
  intro l
  induction l with
  | nil => intro ys h; unfold mapME at h; cases h; rfl
  | cons x xs ih =>
    intro ys h
    unfold mapME at h
    cases hf : f x with
    | error e => rw [hf] at h; exact absurd h (by simp)
    | ok y0 =>
      rw [hf] at h
      cases hm : mapME f xs with
      | error e => rw [hm] at h; exact absurd h (by simp)
      | ok ys0 => rw [hm] at h; cases h; simp [ih hm]

theorem printFeature_bin_val {args : Args} {ci : ℕ} {inst : List String}
    {nd : ℕ → Option (String → Option ℕ)} {attrs : List Attr} {suffix : Option String}
    {i : ℕ} {toks : List Tok} (h : printFeature args ci inst nd attrs suffix i = .ok toks) :
    ∀ name v, Tok.bin name v ∈ toks → v = 1 := by
  intro name v hv
  unfold printFeature at h
  by_cases h1 : i = ci
  · rw [if_pos h1] at h; cases h; simp at hv
  rw [if_neg h1] at h
  by_cases h2 : (args.features = [] ∨ (i + 1) ∈ args.features) ∧ (i + 1) ∉ args.superclasses
  swap
  · rw [if_pos h2] at h; cases h; simp at hv
  rw [if_neg (not_not_intro h2)] at h
  cases hg : attrs.get? i with
  | none => rw [hg] at h; exact absurd h (by simp)
  | some attr =>
    simp only [hg] at h
    by_cases hk : attr.kind = 1
    · rw [if_pos hk] at h
      cases hpf : parseFloat (inst.getD i "") with
      | none => rw [hpf] at h; exact absurd h (by simp)
      | some w =>
        simp only [hpf] at h
        by_cases hz : w.num ≠ 0
        swap
        · rw [if_neg hz] at h; cases h; simp at hv
        rw [if_pos hz] at h
        by_cases hb : args.binary ≠ [] ∧ (args.binary = [0] ∨ (i + 1) ∈ args.binary)
        swap
        · rw [if_neg hb] at h; cases h; simp at hv
        rw [if_pos hb] at h
        cases h
        rcases List.mem_append.mp hv with hv1 | hv2
        · have hEq := List.mem_singleton.mp hv1
          have hveq : v = if w.num ≠ 0 then 1 else 0 := by injection hEq
          rw [hveq, if_pos hz]
        · by_cases hd : args.doubleup <;> simp [hd] at hv2
    · rw [if_neg hk] at h
      cases hnd : nd i with
      | none => simp only [hnd] at h; cases h; simp at hv
      | some dct =>
        simp only [hnd] at h
        cases hdv : dct (inst.getD i "") with
        | none => rw [hdv] at h; exact absurd h (by simp)
        | some code => simp only [hdv] at h; cases h; simp at hv

theorem print_instance_bin_val {args : Args} {ci : ℕ} {inst : List String}
    {nd : ℕ → Option (String → Option ℕ)} {attrs : List Attr} {suffix : Option String}
    {toks : List Tok} (h : print_instance args ci inst nd attrs suffix = .ok toks) :
    ∀ name v, Tok.bin name v ∈ toks → v = 1 := by
  intro name v hv
  unfold print_instance at h
  cases hm : mapME (printFeature args ci inst nd attrs suffix) (List.range inst.length) with
  | error e => rw [hm] at h; exact absurd h (by simp)
  | ok chunks =>
    rw [hm] at h
    cases h
    obtain ⟨chunk, hck, hvc⟩ := List.mem_flatten.mp hv
    obtain ⟨i, _, hfi⟩ := mapME_ok_mem hm chunk hck
    exact printFeature_bin_val hfi name v hvc

theorem printFeature_name_suffix {args : Args} {ci : ℕ} {inst : List String}
    {nd : ℕ → Option (String → Option ℕ)} {attrs : List Attr} {suf : String}
    {i : ℕ} {toks : List Tok} (h : printFeature args ci inst nd attrs (some suf) i = .ok toks) :
    ∀ t ∈ toks, tokName t = sanitize_name ("F" ++ natToString (i + 1) ++ suf) := by
  intro t ht
  unfold printFeature at h
  by_cases h1 : i = ci
  · rw [if_pos h1] at h; cases h; simp at ht
  rw [if_neg h1] at h
  by_cases h2 : (args.features = [] ∨ (i + 1) ∈ args.features) ∧ (i + 1) ∉ args.superclasses
  swap
  · rw [if_pos h2] at h; cases h; simp at ht
  rw [if_neg (not_not_intro h2)] at h
  cases hg : attrs.get? i with
  | none => rw [hg] at h; exact absurd h (by simp)
  | some attr =>
    simp only [hg] at h
    by_cases hk : attr.kind = 1
    · rw [if_pos hk] at h
      cases hpf : parseFloat (inst.getD i "") with
      | none => rw [hpf] at h; exact absurd h (by simp)
      | some w =>
        simp only [hpf] at h
        by_cases hz : w.num ≠ 0
        swap
        · rw [if_neg hz] at h; cases h; simp at ht
        rw [if_pos hz] at h
        by_cases hb : args.binary ≠ [] ∧ (args.binary = [0] ∨ (i + 1) ∈ args.binary)
        swap
        · rw [if_neg hb] at h; cases h
          rw [List.mem_singleton.mp ht]; rfl
        rw [if_pos hb] at h
        cases h
        rcases List.mem_append.mp ht with ht1 | ht2
        · rw [List.mem_singleton.mp ht1]; rfl
        · by_cases hd : args.doubleup
          · simp only [hd, if_pos] at ht2
            rw [List.mem_singleton.mp ht2]; rfl
          · simp [hd] at ht2
    · rw [if_neg hk] at h
      cases hnd : nd i with
      | none => simp only [hnd] at h; cases h; simp at ht
      | some dct =>
        simp only [hnd] at h
        cases hdv : dct (inst.getD i "") with
        | none => rw [hdv] at h; exact absurd h (by simp)
        | some code =>
          simp only [hdv] at h
          cases h
          rw [List.mem_singleton.mp ht]; rfl

theorem print_instance_name_suffix {args : Args} {ci : ℕ} {inst : List String}
    {nd : ℕ → Option (String → Option ℕ)} {attrs : List Attr} {suf : String}
    {toks : List Tok} (h : print_instance args ci inst nd attrs (some suf) = .ok toks) :
    ∀ t ∈ toks, ∃ i, tokName t = sanitize_name ("F" ++ natToString (i + 1) ++ suf) := by
  intro t ht
  unfold print_instance at h
  cases hm : mapME (printFeature args ci inst nd attrs (some suf)) (List.range inst.length) with
  | error e => rw [hm] at h; exact absurd h (by simp)
  | ok chunks =>
    rw [hm] at h
    cases h
    obtain ⟨chunk, hck, htc⟩ := List.mem_flatten.mp ht
    obtain ⟨i, _, hfi⟩ := mapME_ok_mem hm chunk hck
    exact ⟨i, printFeature_name_suffix hfi t htc⟩

theorem process_set_records {args : Args} {ci : ℕ} {nd : ℕ → Option (String → Option ℕ)}
    {attrs : List Attr} {instStrs : List String} {bucket : List ℕ} {items : List OutItem}
    (h : process_set args ci nd attrs instStrs bucket = .ok items) :
    ∀ x ∈ items, isRec x = true := by
  intro x hx
  unfold process_set at h
  obtain ⟨idx, _, hfi⟩ := mapME_ok_mem h x hx
  cases hg : instStrs.get? idx with
  | none => rw [hg] at hfi; exact absurd hfi (by simp)
  | some line =>
    simp only [hg] at hfi
    cases hp : process_instance args ci nd attrs line with
    | error e => rw [hp] at hfi; exact absurd hfi (by simp)
    | ok toks =>
      simp only [hp] at hfi
      cases hfi
      rfl

theorem sectionRecords_records {args : Args} {ctx : Ctx} {buckets : ℕ → List ℕ}
    {items : List OutItem} (h : sectionRecords args ctx buckets = .ok items) :
    ∀ x ∈ items, isRec x = true := by
  intro x hx
  unfold sectionRecords at h
  cases hm : mapME (fun c => process_set args ctx.ciNat ctx.nd ctx.attrs ctx.dataLines (buckets c))
      (List.range ctx.classList.length) with
  | error e => rw [hm] at h; exact absurd h (by simp)
  | ok outs =>
    rw [hm] at h
    cases h
    obtain ⟨out, hout, hxo⟩ := List.mem_flatten.mp hx
    obtain ⟨c, _, hfc⟩ := mapME_ok_mem hm out hout
    exact process_set_records hfc x hxo

theorem pyIdx_nonneg {n : ℕ} {i : ℤ} {j : ℕ} (hi : 0 ≤ i) (h : pyIdx n i = some j) :
    j = i.toNat := by
  unfold pyIdx at h
  by_cases h1 : 0 ≤ i ∧ i < (n : ℤ)
  · rw [if_pos h1] at h; cases h; rfl
  · rw [if_neg h1] at h
    by_cases h2 : -(n : ℤ) ≤ i ∧ i < 0
    · omega
    · rw [if_neg h2] at h; exact absurd h (by simp)

/-! ## Claim theorems -/

/-- C1: after the single partitioning scan, every instance index is in at most
one of the three per-class bucket families (never in two); each processed
index is in exactly one bucket, unless the `max` train cap is nonzero and the
dev, test and train caps for that index's class are all met, in which case the
index is in none of them (dropped). -/
theorem claim_C1 (devCap testCap maxCap : ℕ) (cs : List ℕ) :
    (∀ j, ¬ ((inDev (partitionScan devCap testCap maxCap cs) j ∧
              inTest (partitionScan devCap testCap maxCap cs) j) ∨
             (inDev (partitionScan devCap testCap maxCap cs) j ∧
              inTrain (partitionScan devCap testCap maxCap cs) j) ∨
             (inTest (partitionScan devCap testCap maxCap cs) j ∧
              inTrain (partitionScan devCap testCap maxCap cs) j))) ∧
    (∀ p, p < cs.length →
      exactlyOneOf (inDev (partitionScan devCap testCap maxCap cs) p)
          (inTest (partitionScan devCap testCap maxCap cs) p)
          (inTrain (partitionScan devCap testCap maxCap cs) p) ∨
        (maxCap ≠ 0 ∧ inNone (partitionScan devCap testCap maxCap cs) p ∧
          ((partitionScan devCap testCap maxCap cs).dev (cs.getD p 0)).length = devCap ∧
          ((partitionScan devCap testCap maxCap cs).test (cs.getD p 0)).length = testCap ∧
          ((partitionScan devCap testCap maxCap cs).train (cs.getD p 0)).length = maxCap)) := by
  have hfresh : fresh emptyPartState 0 := by
    intro j _
    refine ⟨?_, ?_, ?_⟩ <;> rintro ⟨c, hc⟩ <;> simp [emptyPartState] at hc
  have hcaps : capsLe devCap testCap maxCap emptyPartState := by
    intro c
    simp [emptyPartState]
  obtain ⟨F, C, _, New⟩ :=
    partitionFrom_props devCap testCap maxCap cs 0 emptyPartState hfresh hcaps
  have hNew : ∀ p, p < cs.length →
      placedOK devCap testCap maxCap (partitionScan devCap testCap maxCap cs) p (cs.getD p 0) := by
    intro p hp
    have h := New p hp
    rwa [Nat.zero_add] at h
  constructor
  · intro j
    by_cases hj : j < cs.length
    · have h := hNew j hj
      rcases h with he | ⟨_, ⟨h1, h2, h3⟩, _⟩
      · rcases he with ⟨a, b, c⟩ | ⟨a, b, c⟩ | ⟨a, b, c⟩ <;>
          rintro (⟨x, y⟩ | ⟨x, y⟩ | ⟨x, y⟩) <;> tauto
      · rintro (⟨x, y⟩ | ⟨x, y⟩ | ⟨x, y⟩) <;> tauto
    · have h := F j (by rw [Nat.zero_add]; omega)
      obtain ⟨h1, h2, h3⟩ := h
      rintro (⟨x, y⟩ | ⟨x, y⟩ | ⟨x, y⟩) <;> tauto
  · exact hNew

/-- Witness for C1 at `devCap = 1`, `testCap = 0`, `maxCap = 1` and three
instances of one class: the third instance is dropped with all caps met. -/
theorem claim_C1_witness :
    exactlyOneOf (inDev (partitionScan 1 0 1 [0, 0, 0]) 2)
        (inTest (partitionScan 1 0 1 [0, 0, 0]) 2)
        (inTrain (partitionScan 1 0 1 [0, 0, 0]) 2) ∨
      (1 ≠ 0 ∧ inNone (partitionScan 1 0 1 [0, 0, 0]) 2 ∧
        ((partitionScan 1 0 1 [0, 0, 0]).dev ([0, 0, 0].getD 2 0)).length = 1 ∧
        ((partitionScan 1 0 1 [0, 0, 0]).test ([0, 0, 0].getD 2 0)).length = 0 ∧
        ((partitionScan 1 0 1 [0, 0, 0]).train ([0, 0, 0].getD 2 0)).length = 1) :=
  (claim_C1 1 0 1 [0, 0, 0]).2 2 (by decide)

/-- C2: with `dev = 2`, `test = 1`, `max = 0`, no shuffle, and five data lines
A,B,C,D,E of the same class, the scan puts indices 0 and 1 (A, B) in that
class's dev bucket, 2 (C) in its test bucket, and 3 and 4 (D, E) in its train
bucket. -/
theorem claim_C2 :
    (runPartition argsDev2Test1 linesFiveSameClass).map
      (fun st => (st.dev 0, st.test 0, st.train 0)) = .ok ([0, 1], [2], [3, 4]) := rfl

/-- C3: `parse_num_list` on the empty string does not return the empty list —
the empty string is exempted from the grammar check but then crashes on
`int('')` (a `ValueError`); on strings matching the range grammar the covered
list is produced as expected. -/
theorem claim_C3 :
    parse_num_list "" = .error "ValueError: invalid literal for int() with base 10" ∧
    parse_num_list "3-5,42" = .ok [3, 4, 5, 42] ∧
    parse_num_list "8-15" = .ok [8, 9, 10, 11, 12, 13, 14, 15] :=
  ⟨rfl, rfl, rfl⟩

/-- Counterexample to C5: the attribute-type comparison is case-sensitive, so
`NUMERIC` yields kind 0 (StringOrOther), not kind 1 (Numeric) as the claim's
case-insensitive reading requires. -/
theorem claim_C5_counterexample :
    processHeader '\'' ["@attribute a NUMERIC", "@data"] [] "" =
      .ok ([⟨"a", 0, []⟩], "", []) ∧
    ([(⟨"a", 0, []⟩ : Attr)] ≠ [⟨"a", 1, []⟩]) :=
  ⟨rfl, by decide⟩

/-- C5 (amended): an `@attribute` type token not starting with a brace is
assigned kind Numeric iff it equals `"numeric"` exactly (case-sensitively);
`NUMERIC` and `Numeric` yield kind StringOrOther (0). -/
theorem claim_C5_amended :
    (∀ t : String, attrKind t = 1 ↔ t = "numeric") ∧
    attrKind "NUMERIC" = 0 ∧ attrKind "Numeric" = 0 ∧ attrKind "numeric" = 1 := by
  refine ⟨?_, rfl, rfl, rfl⟩
  intro t
  unfold attrKind
  split_ifs with h
  · simp [h]
  · simp [h]

/-- Counterexample to C6: the resolution performs no bounds check, so with one
attribute and configured class index 2 the resolved index is 1, violating
`resolved ≤ n - 1 = 0`. -/
theorem claim_C6_counterexample :
    resolveClassIndex 2 1 = 1 ∧ ¬ (resolveClassIndex 2 1 ≤ (1 : ℤ) - 1) := by
  constructor
  · rfl
  · decide

/-- C6 (amended): for a configured class index within `[-n, n] \ {0}` the
resolved 0-based index lies in `[0, n-1]`; in particular `-1` resolves to the
last attribute and `1` to the first. -/
theorem claim_C6_amended (n : ℕ) (ci : ℤ) (hn : 1 ≤ n) (hci : ci ≠ 0)
    (hlo : -(n : ℤ) ≤ ci) (hhi : ci ≤ (n : ℤ)) :
    (0 ≤ resolveClassIndex ci n ∧ resolveClassIndex ci n ≤ (n : ℤ) - 1) ∧
    resolveClassIndex (-1) n = (n : ℤ) - 1 ∧ resolveClassIndex 1 n = 0 := by
  unfold resolveClassIndex
  refine ⟨?_, ?_, ?_⟩
  · split_ifs with h <;> omega
  · rw [if_neg (by omega)]; omega
  · rw [if_pos (by omega : (1 : ℤ) > 0)]; omega

/-- Witness for C6 (amended) at `n = 5`, `ci = -1`. -/
theorem claim_C6_amended_witness :
    (0 ≤ resolveClassIndex (-1) 5 ∧ resolveClassIndex (-1) 5 ≤ (5 : ℤ) - 1) ∧
    resolveClassIndex (-1) 5 = (5 : ℤ) - 1 ∧ resolveClassIndex 1 5 = 0 :=
  claim_C6_amended 5 (-1) (by decide) (by decide) (by decide) (by decide)

/-- Counterexample to C7: on an input that ends with no `@data` line the run
does not fail — it produces normal (here empty) output with a zero exit. -/
theorem claim_C7_counterexample :
    runPipeline defaultArgs ["@attribute cls \x7bx,y\x7d"] = .ok [] := rfl

/-- C7 (amended): input exhaustion before a `@data` line is not an error;
whenever the header loop finishes successfully on lines none of which has
first token (case-insensitively) `@data`, the remaining data region is empty
and the run proceeds to the data phase with zero instances. -/
theorem claim_C7_amended (q : Char) :
    ∀ (lines : List String) (attrs0 : List Attr) (rel0 : String)
      (res : List Attr × String × List String),
      processHeader q lines attrs0 rel0 = .ok res →
      (∀ l ∈ lines, pyLower ((split_with_quotes l ' ' q '\\').headD "") ≠ "@data") →
      res.2.2 = [] := by
  intro lines
  induction lines with
  | nil =>
    intro attrs0 rel0 res h _
    unfold processHeader at h
    cases h
    rfl
  | cons l ls ih =>
    intro attrs0 rel0 res h hnd
    have htail : ∀ x ∈ ls, pyLower ((split_with_quotes x ' ' q '\\').headD "") ≠ "@data" :=
      fun x hx => hnd x (List.mem_cons_of_mem _ hx)
    unfold processHeader at h
    by_cases hb : pyStrip l = ""
    · rw [if_pos hb] at h
      exact ih attrs0 rel0 res h htail
    rw [if_neg hb] at h
    by_cases ha : pyLower ((split_with_quotes l ' ' q '\\').headD "") = "@attribute"
    · rw [if_pos ha] at h
      cases h1 : (split_with_quotes l ' ' q '\\').get? 1 with
      | none => simp only [h1] at h; cases h
      | some name =>
        cases h2 : (split_with_quotes l ' ' q '\\').get? 2 with
        | none => simp only [h1, h2] at h; cases h
        | some typeTok =>
          simp only [h1, h2] at h
          cases h3 : typeTok.data.head? with
          | none => simp only [h3] at h; cases h
          | some c0 =>
            simp only [h3] at h
            by_cases h4 : c0 = '\x7b'
            · rw [if_pos h4] at h
              exact ih _ _ res h htail
            · rw [if_neg h4] at h
              exact ih _ _ res h htail
    rw [if_neg ha] at h
    by_cases hd : pyLower ((split_with_quotes l ' ' q '\\').headD "") = "@data"
    · exact absurd hd (hnd l (List.mem_cons_self _ _))
    rw [if_neg hd] at h
    by_cases hr : pyLower ((split_with_quotes l ' ' q '\\').headD "") = "@relation"
    · rw [if_pos hr] at h
      cases h1 : (split_with_quotes l ' ' q '\\').get? 1 with
      | some r =>
        simp only [h1] at h
        exact ih _ _ res h htail
      | none => simp only [h1] at h; cases h
    · rw [if_neg hr] at h
      exact ih _ _ res h htail

/-- Witness for C7 (amended): a one-attribute header with no `@data` parses
successfully with an empty data region. -/
theorem claim_C7_amended_witness :
    (([⟨"cls", 2, ["x", "y"]⟩] : List Attr), "", ([] : List String)).2.2 = [] :=
  claim_C7_amended '\'' ["@attribute cls \x7bx,y\x7d"] [] ""
    ([⟨"cls", 2, ["x", "y"]⟩], "", []) rfl (by decide)

/-- Counterexample to C8: with `dev = 1` and an empty data region there are
zero dev records, yet the `DEV` marker line is still printed (the source
tests `args.dev`, not the record count). -/
theorem claim_C8_counterexample :
    runPipeline argsDev1 ["@attribute cls \x7bx\x7d", "@data"] = .ok [OutItem.marker "DEV"] ∧
    ([OutItem.marker "DEV"].filter isRec).length = 0 ∧
    OutItem.marker "DEV" ∈ [OutItem.marker "DEV"] :=
  ⟨rfl, rfl, List.mem_singleton.mpr rfl⟩

/-- C8 (amended): the output is all train records (no marker), then — exactly
when the configured dev cap is nonzero, regardless of the dev record count —
the literal `DEV` marker followed by the dev records, then likewise `TEST`
for the test cap; the three sections contain only records. -/
theorem claim_C8_amended (args : Args) (lines : List String) (out : List OutItem)
    (h : runPipeline args lines = .ok out) :
    ∃ tr dv ts, (∀ x ∈ tr, isRec x = true) ∧ (∀ x ∈ dv, isRec x = true) ∧
      (∀ x ∈ ts, isRec x = true) ∧
      out = tr ++ (if args.dev ≠ 0 then OutItem.marker "DEV" :: dv else []) ++
            (if args.test ≠ 0 then OutItem.marker "TEST" :: ts else []) := by
  unfold runPipeline at h
  cases hc : pipelineContext args lines with
  | error e => rw [hc] at h; exact absurd h (by simp)
  | ok ctx =>
    simp only [hc] at h
    cases htr : sectionRecords args ctx ctx.st.train with
    | error e => rw [htr] at h; exact absurd h (by simp)
    | ok tr =>
      simp only [htr] at h
      by_cases hd : args.dev ≠ 0
      · rw [if_pos hd] at h
        cases hdv : sectionRecords args ctx ctx.st.dev with
        | error e => rw [hdv] at h; exact absurd h (by simp [Except.map])
        | ok dv =>
          rw [hdv] at h
          simp only [Except.map] at h
          by_cases ht : args.test ≠ 0
          · rw [if_pos ht] at h
            cases hts : sectionRecords args ctx ctx.st.test with
            | error e => rw [hts] at h; exact absurd h (by simp [Except.map])
            | ok ts =>
              rw [hts] at h
              simp only [Except.map] at h
              cases h
              exact ⟨tr, dv, ts, sectionRecords_records htr, sectionRecords_records hdv,
                sectionRecords_records hts, by rw [if_pos hd, if_pos ht]⟩
          · rw [if_neg ht] at h
            cases h
            exact ⟨tr, dv, [], sectionRecords_records htr, sectionRecords_records hdv,
              by simp, by rw [if_pos hd, if_neg ht]⟩
      · rw [if_neg hd] at h
        by_cases ht : args.test ≠ 0
        · rw [if_pos ht] at h
          cases hts : sectionRecords args ctx ctx.st.test with
          | error e => rw [hts] at h; exact absurd h (by simp [Except.map])
          | ok ts =>
            rw [hts] at h
            simp only [Except.map] at h
            cases h
            exact ⟨tr, [], ts, sectionRecords_records htr, by simp,
              sectionRecords_records hts, by rw [if_neg hd, if_pos ht]⟩
        · rw [if_neg ht] at h
          cases h
          exact ⟨tr, [], [], sectionRecords_records htr, by simp, by simp,
            by rw [if_neg hd, if_neg ht]⟩

/-- Witness for C8 (amended) on a run with `dev = 1`, `test = 1` and one
instance: the output decomposes into the amended marker/record shape. -/
theorem claim_C8_amended_witness :
    ∃ tr dv ts, (∀ x ∈ tr, isRec x = true) ∧ (∀ x ∈ dv, isRec x = true) ∧
      (∀ x ∈ ts, isRec x = true) ∧
      [OutItem.marker "DEV", OutItem.record [Tok.classTok "0"], OutItem.marker "TEST"] =
        tr ++ (if argsDev1Test1.dev ≠ 0 then OutItem.marker "DEV" :: dv else []) ++
              (if argsDev1Test1.test ≠ 0 then OutItem.marker "TEST" :: ts else []) :=
  claim_C8_amended argsDev1Test1 ["@attribute cls \x7bx\x7d", "@data", "x"]
    [OutItem.marker "DEV", OutItem.record [Tok.classTok "0"], OutItem.marker "TEST"] rfl

/-- C9: every binarized numeric token carries value exactly 1 — zero-valued
numeric features are skipped before binary conversion applies, so the
`1-or-0` truthiness rendering can only ever produce 1. -/
theorem claim_C9 (args : Args) (ci : ℕ) (inst : List String)
    (nd : ℕ → Option (String → Option ℕ)) (attrs : List Attr) (suffix : Option String)
    (toks : List Tok) (h : print_instance args ci inst nd attrs suffix = .ok toks) :
    ∀ name v, Tok.bin name v ∈ toks → v = 1 :=
  print_instance_bin_val h

/-- Witness for C9: a binarized nonzero numeric feature prints value 1. -/
theorem claim_C9_witness :
    print_instance argsBinAll 1 ["3", "x"] (build_nominal_dict attrsNumCls) attrsNumCls none =
      .ok [Tok.bin "age" 1] ∧ (1 : ℕ) = 1 :=
  ⟨rfl, claim_C9 argsBinAll 1 ["3", "x"] (build_nominal_dict attrsNumCls) attrsNumCls none
    [Tok.bin "age" 1] rfl "age" 1 (List.mem_singleton.mpr rfl)⟩

/-- C10: when the resolved class attribute is not nominal (kind ≠ 2), the run
aborts with the `class_dict` lookup failure right after header parsing — for
every data region, before any instance is scanned or any output produced. -/
theorem claim_C10 (args : Args) (lines : List String) (attrs : List Attr) (rel : String)
    (rest : List String) (clIdx : ℕ) (catt : Attr)
    (hhdr : processHeader args.quotechar lines [] "" = .ok (attrs, rel, rest))
    (hidx : pyIdx attrs.length (resolveClassIndex args.classindex attrs.length) = some clIdx)
    (hcatt : attrs.get? clIdx = some catt) (hkind : catt.kind ≠ 2) :
    runPipeline args lines = .error "KeyError: nominal_dict[args.classindex]" := by
  have hdict : (if 0 ≤ resolveClassIndex args.classindex attrs.length then
      build_nominal_dict attrs (resolveClassIndex args.classindex attrs.length).toNat
    else none) = none := by
    by_cases hr : 0 ≤ resolveClassIndex args.classindex attrs.length
    · rw [if_pos hr]
      have hEq := pyIdx_nonneg hr hidx
      unfold build_nominal_dict
      rw [← hEq]
      simp only [hcatt]
      rw [if_neg hkind]
    · rw [if_neg hr]
  unfold runPipeline pipelineContext
  simp only [hhdr]
  simp only [hidx]
  rw [hdict]

/-- Witness for C10: a numeric class attribute aborts the run with the
`class_dict` lookup failure. -/
theorem claim_C10_witness :
    runPipeline defaultArgs ["@attribute a numeric", "@data", "1"] =
      .error "KeyError: nominal_dict[args.classindex]" :=
  claim_C10 defaultArgs ["@attribute a numeric", "@data", "1"] [⟨"a", 1, []⟩] "" ["1"]
    0 ⟨"a", 1, []⟩ rfl rfl rfl (by decide)

/-- Counterexample to C4: in the explicit format the ordinary features do not
keep their own attribute names (they are renamed `F<index> <classValue>`), and
each configured superclass index contributes a full copy of the ordinary
features rather than exactly one synthetic feature: the actual record has 11
tokens where the claim's shape requires 9, with attribute-derived names. -/
theorem claim_C4_counterexample :
    process_instance argsSuper3 3 (build_nominal_dict attrsSuper) attrsSuper "2,3,p,cat" =
      .ok [Tok.classTok "0",
        Tok.hash, Tok.num "F1_cat" "2", Tok.num "F2_cat" "3",
        Tok.num "F1_sup_p" "2", Tok.num "F2_sup_p" "3",
        Tok.hash, Tok.num "F1_dog" "2", Tok.num "F2_dog" "3",
        Tok.num "F1_sup_p" "2", Tok.num "F2_sup_p" "3"] ∧
    ¬ ∃ s1 s2 : Tok,
      [Tok.classTok "0",
        Tok.hash, Tok.num "F1_cat" "2", Tok.num "F2_cat" "3",
        Tok.num "F1_sup_p" "2", Tok.num "F2_sup_p" "3",
        Tok.hash, Tok.num "F1_dog" "2", Tok.num "F2_dog" "3",
        Tok.num "F1_sup_p" "2", Tok.num "F2_sup_p" "3"] =
      [Tok.classTok "0", Tok.hash, Tok.num "a1_cat" "2", Tok.num "a2_cat" "3", s1,
        Tok.hash, Tok.num "a1_dog" "2", Tok.num "a2_dog" "3", s2] := by
  refine ⟨rfl, ?_⟩
  rintro ⟨s1, s2, hEq⟩
  have hlen := congrArg List.length hEq
  simp at hlen

/-- C4 (amended): with superclasses configured, the record is the class token
followed by one block per nominal class value; each block is a `#` marker,
then the ordinary features renamed `F<1-based index> <classValue>` (sanitized),
then one full `print_instance` rendering per configured superclass index
(suffixed with that superclass attribute's name and the instance's value for
it, not with the class value). -/
theorem claim_C4_amended (args : Args) (ci : ℕ) (nd : ℕ → Option (String → Option ℕ))
    (attrs : List Attr) (line : String) (catt : Attr) (ctok : Tok) (blocks : List (List Tok))
    (hsup : args.superclasses ≠ [])
    (hctok : classToken args ci nd (split_with_quotes line ',' args.quotechar '\\') = .ok ctok)
    (hcatt : attrs.get? ci = some catt)
    (hblocks : mapME (explicitBlock args ci nd attrs
        (split_with_quotes line ',' args.quotechar '\\')) catt.values = .ok blocks) :
    process_instance args ci nd attrs line = .ok (ctok :: blocks.flatten) ∧
    ∀ b ∈ blocks, ∃ cname ∈ catt.values, ∃ (ord : List Tok) (sups : List (List Tok)),
      print_instance args ci (split_with_quotes line ',' args.quotechar '\\') nd attrs
        (some (" " ++ cname)) = .ok ord ∧
      sups.length = args.superclasses.length ∧
      b = Tok.hash :: ord ++ sups.flatten ∧
      (∀ t ∈ ord, ∃ i, tokName t = sanitize_name ("F" ++ natToString (i + 1) ++ (" " ++ cname))) := by
  constructor
  · unfold process_instance
    simp only [hctok]
    rw [if_pos hsup]
    simp only [hcatt, hblocks]
  · intro b hb
    obtain ⟨cname, hcv, hfb⟩ := mapME_ok_mem hblocks b hb
    unfold explicitBlock at hfb
    cases hord : print_instance args ci (split_with_quotes line ',' args.quotechar '\\') nd attrs
        (some (" " ++ cname)) with
    | error e => rw [hord] at hfb; cases hfb
    | ok ord =>
      simp only [hord] at hfb
      cases hsups : superclassRenderings args ci nd attrs
          (split_with_quotes line ',' args.quotechar '\\') with
      | error e => rw [hsups] at hfb; cases hfb
      | ok sups =>
        simp only [hsups] at hfb
        cases hfb
        exact ⟨cname, hcv, ord, sups, hord, mapME_ok_length hsups, rfl,
          fun t ht => print_instance_name_suffix hord t ht⟩

/-- Witness for C4 (amended) on the concrete schema and instance above. -/
theorem claim_C4_amended_witness :
    process_instance argsSuper3 3 (build_nominal_dict attrsSuper) attrsSuper "2,3,p,cat" =
      .ok (Tok.classTok "0" ::
        [[Tok.hash, Tok.num "F1_cat" "2", Tok.num "F2_cat" "3",
          Tok.num "F1_sup_p" "2", Tok.num "F2_sup_p" "3"],
         [Tok.hash, Tok.num "F1_dog" "2", Tok.num "F2_dog" "3",
          Tok.num "F1_sup_p" "2", Tok.num "F2_sup_p" "3"]].flatten) ∧
    ∀ b ∈ [[Tok.hash, Tok.num "F1_cat" "2", Tok.num "F2_cat" "3",
          Tok.num "F1_sup_p" "2", Tok.num "F2_sup_p" "3"],
         [Tok.hash, Tok.num "F1_dog" "2", Tok.num "F2_dog" "3",
          Tok.num "F1_sup_p" "2", Tok.num "F2_sup_p" "3"]],
      ∃ cname ∈ (⟨"cls", 2, ["cat", "dog"]⟩ : Attr).values,
      ∃ (ord : List Tok) (sups : List (List Tok)),
      print_instance argsSuper3 3
        (split_with_quotes "2,3,p,cat" ',' argsSuper3.quotechar '\\')
        (build_nominal_dict attrsSuper) attrsSuper (some (" " ++ cname)) = .ok ord ∧
      sups.length = argsSuper3.superclasses.length ∧
      b = Tok.hash :: ord ++ sups.flatten ∧
      (∀ t ∈ ord, ∃ i, tokName t = sanitize_name ("F" ++ natToString (i + 1) ++ (" " ++ cname))) :=
  claim_C4_amended argsSuper3 3 (build_nominal_dict attrsSuper) attrsSuper "2,3,p,cat"
    ⟨"cls", 2, ["cat", "dog"]⟩ (Tok.classTok "0")
    [[Tok.hash, Tok.num "F1_cat" "2", Tok.num "F2_cat" "3",
      Tok.num "F1_sup_p" "2", Tok.num "F2_sup_p" "3"],
     [Tok.hash, Tok.num "F1_dog" "2", Tok.num "F2_dog" "3",
      Tok.num "F1_sup_p" "2", Tok.num "F2_sup_p" "3"]]
    (by decide) rfl rfl rfl
